import Mathlib

/-!
Verification of the live external-state synchronization layer of a
terminal dashboard: the path classifier of the filesystem watcher, the
transcript-envelope parser, and the subprocess orchestrator state
transitions (spawn, output polling, kill) of the reconciliation loop.

Paths and other byte strings handled by the classifier are modelled as
lists of characters; the string primitives used by the source
(contains, ends_with, find, replace) are defined below.
-/

namespace Assoc

/-- Is the first list a prefix of the second? Mirrors str slicing
used by the Rust standard library primitives. -/
def isPre : List Char → List Char → Bool
  | [], _ => true
  | _ :: _, [] => false
  | a :: s, b :: t => a == b && isPre s t

/-- First index (in characters) at which the pattern occurs, mirroring
str::find on ASCII patterns. -/
def findSub : List Char → List Char → Option Nat
  | [], pat => if isPre pat [] then some 0 else none
  | a :: t, pat =>
    if isPre pat (a :: t) then some 0
    else Option.map (fun n => n + 1) (findSub t pat)

/-- Substring containment, mirroring str::contains. -/
def strContains : List Char → List Char → Bool
  | [], pat => isPre pat []
  | a :: t, pat => isPre pat (a :: t) || strContains t pat

/-- Suffix test, mirroring str::ends_with. -/
def strEndsWith (s pat : List Char) : Bool :=
  isPre pat.reverse s.reverse

/-- Mirrors `path_str.replace('\\', "/")`. -/
def normalize (s : List Char) : List Char :=
  s.map (fun c => if c == '\\' then '/' else c)

end Assoc

open Assoc

/-- Categorized file change from the watcher (src/event.rs, FileChange). -/
inductive FileChange where
  | sessionIndex : FileChange
  | transcript (path : List Char) : FileChange
  | subagentTranscript (path : List Char) : FileChange
  | teamConfig (team : List Char) : FileChange
  | teamInbox (team : List Char) (agent : List Char) : FileChange
  | taskFile (team : List Char) : FileChange
  | todoFile (path : List Char) : FileChange
  | gitChange : FileChange
  | planFile (path : List Char) : FileChange
deriving DecidableEq, Repr

/-- Extract the first path segment after a prefix such as "teams/" or
"tasks/" (src/watcher/mod.rs, extract_segment). -/
def extract_segment (path pre : List Char) : Option (List Char) :=
  match findSub path pre with
  | none => none
  | some idx =>
    let rest := path.drop (idx + pre.length)
    let seg := rest.takeWhile (fun c => c != '/')
    if seg.isEmpty then none else some seg

/-- Path classifier of the watcher (src/watcher/mod.rs, classify_change).
The Rust function receives the path both as a string and as a Path used
only to build the returned payload; both are the same character data
here. Rules where segment extraction fails fall through to the later
rules, exactly as in the source. -/
def classify_change (pathStr : List Char) (encodedProject : List Char) :
    Option FileChange :=
  let normalized := normalize pathStr
  if strContains normalized ("/.git/".data) || strEndsWith normalized ("/.git".data) then
    if strEndsWith normalized ("/index".data) || strEndsWith normalized ("/HEAD".data)
        || strContains normalized ("/refs/".data) then
      some FileChange.gitChange
    else
      none
  else if strContains normalized (("projects/".data) ++ encodedProject ++ ("/sessions-index.json".data)) then
    some FileChange.sessionIndex
  else if strContains normalized (("projects/".data) ++ encodedProject ++ ("/".data))
      && strContains normalized ("/subagents/".data)
      && strEndsWith normalized (".jsonl".data) then
    some (FileChange.subagentTranscript pathStr)
  else if strContains normalized (("projects/".data) ++ encodedProject ++ ("/".data))
      && strEndsWith normalized (".jsonl".data) then
    some (FileChange.transcript pathStr)
  else
    match
      (if strContains normalized ("teams/".data) && strEndsWith normalized ("config.json".data) then
        extract_segment normalized ("teams/".data)
      else none) with
    | some name => some (FileChange.teamConfig name)
    | none =>
      match
        (if strContains normalized ("teams/".data) && strContains normalized ("inboxes/".data) then
          extract_segment normalized ("teams/".data)
        else none) with
      | some name => some (FileChange.teamInbox name [])
      | none =>
        match
          (if strContains normalized ("tasks/".data) && strEndsWith normalized (".json".data) then
            extract_segment normalized ("tasks/".data)
          else none) with
        | some name => some (FileChange.taskFile name)
        | none =>
          if strContains normalized ("todos/".data) && strEndsWith normalized (".json".data) then
            some (FileChange.todoFile pathStr)
          else if strContains normalized ("plans/".data) && strEndsWith normalized (".md".data) then
            some (FileChange.planFile pathStr)
          else
            none

/-! ### Process orchestration (src/model/process.rs, src/data/process_runner.rs, src/app.rs) -/

/-- Maximum number of output/error lines retained per process
(src/model/process.rs, MAX_PROCESS_OUTPUT_LINES). -/
def MAX_PROCESS_OUTPUT_LINES : Nat := 10000

/-- Where a ticket came from (src/model/process.rs, TicketSource). -/
inductive TicketSource where
  | githubPR
  | githubIssue
  | linear
  | jira
  | manual
deriving DecidableEq, Repr

/-- Status of a spawned process (src/model/process.rs, ProcessStatus). -/
inductive ProcessStatus where
  | running
  | completed
  | failed
deriving DecidableEq, Repr

/-- A Claude Code process record (src/model/process.rs, SpawnedProcess),
with the fields as constructed and mutated by src/app.rs: output and
error lines are plain growable sequences appended at the back. -/
structure SpawnedProcess where
  id : Nat
  label : String
  title : String
  source : TicketSource
  status : ProcessStatus
  prompt : String
  cwd : String
  output_lines : List String
  error_lines : List String
deriving DecidableEq, Repr

instance : Inhabited SpawnedProcess :=
  ⟨⟨0, "", "", TicketSource.manual, ProcessStatus.running, "", "", [], []⟩⟩

/-- Info needed to generate a prompt from a ticket
(src/model/process.rs, TicketInfo). -/
structure TicketInfo where
  source : TicketSource
  key : String
  title : String
  description : String
  labels : List String
  url : String
  extra_fields : List (String × String)
deriving DecidableEq, Repr

/-- Message sent from a process reader thread back to the main event
loop (src/data/process_runner.rs, ProcessOutput, together with the
Exited variant consumed by src/app.rs, poll_process_output). -/
inductive ProcessOutput where
  | stdout (id : Nat) (line : String)
  | stderr (id : Nat) (line : String)
  | exited (id : Nat) (success : Bool)
deriving DecidableEq, Repr

/-- Outcome of one non-blocking Child::try_wait call, as inspected by
poll_process_output: still running, exited with a success flag, or an
error from the wait itself. -/
inductive TryWaitResult where
  | stillRunning
  | exitedOk (success : Bool)
  | waitErr
deriving DecidableEq, Repr

/-- An OS child handle, reduced to what poll_process_output observes of
it this tick: the result its try_wait call would return. -/
structure Child where
  tryWaitNow : TryWaitResult
deriving DecidableEq, Repr

/-- Active tab of the dashboard (src/app.rs, ActiveTab). -/
inductive ActiveTab where
  | sessions
  | teams
  | todos
  | git
  | plans
  | githubPRs
  | githubIssues
  | jira
  | linear
  | processes
deriving DecidableEq, Repr

/-- The slice of App state (src/app.rs, App) touched by process
spawning, output polling and killing. has_channel models whether
process_tx/process_rx have been created (ensure_process_channel). -/
structure AppState where
  processes : List SpawnedProcess
  process_children : List (Nat × Child)
  process_index : Nat
  process_output_scroll : Nat
  active_tab : ActiveTab
  last_error : Option String
  next_process_id : Nat
  has_channel : Bool
  project_cwd : String
deriving DecidableEq, Repr

/-- Mutate the first element satisfying the test, mirroring
iter_mut().find(...) followed by a field update. -/
def updateFirst (p : α → Bool) (f : α → α) : List α → List α
  | [] => []
  | x :: xs => if p x then f x :: xs else x :: updateFirst p f xs

/-- One drained channel message, as handled by the try_recv loop of
App::poll_process_output (src/app.rs). -/
def applyMsg (st : AppState) (msg : ProcessOutput) : AppState :=
  match msg with
  | ProcessOutput.stdout id line =>
    let procs := updateFirst (fun p => p.id == id)
      (fun p => { p with output_lines := p.output_lines ++ [line] }) st.processes
    { st with processes := procs }
  | ProcessOutput.stderr id line =>
    let procs := updateFirst (fun p => p.id == id)
      (fun p => { p with error_lines := p.error_lines ++ [line] }) st.processes
    { st with processes := procs }
  | ProcessOutput.exited id success =>
    let procs := updateFirst (fun p => p.id == id)
      (fun p => { p with status :=
        if success then ProcessStatus.completed else ProcessStatus.failed }) st.processes
    { st with processes := procs,
              process_children := st.process_children.filter (fun c => c.1 != id) }

/-- The exited-children collection pass of App::poll_process_output:
each live child is try_wait-ed; Ok(Some(s)) records (id, s.success()),
Ok(None) records nothing, Err records (id, false). -/
def collectExited (children : List (Nat × Child)) : List (Nat × Bool) :=
  children.filterMap (fun c =>
    match c.2.tryWaitNow with
    | TryWaitResult.stillRunning => none
    | TryWaitResult.exitedOk s => some (c.1, s)
    | TryWaitResult.waitErr => some (c.1, false))

/-- Application of one collected (id, success) exit result: only a
record still Running receives the terminal status; the child handle is
dropped either way (src/app.rs, poll_process_output, second loop). -/
def applyExit (st : AppState) (e : Nat × Bool) : AppState :=
  let procs := updateFirst (fun p => p.id == e.1)
    (fun p =>
      if p.status = ProcessStatus.running then
        { p with status :=
          if e.2 then ProcessStatus.completed else ProcessStatus.failed }
      else p) st.processes
  { st with processes := procs,
            process_children := st.process_children.filter (fun c => c.1 != e.1) }

/-- App::poll_process_output (src/app.rs): returns immediately when no
channel exists; otherwise drains the queued messages in order, then
polls every remaining child's exit status and applies the collected
results. -/
def poll_process_output (msgs : List ProcessOutput) (st : AppState) : AppState :=
  if st.has_channel then
    let st1 := msgs.foldl applyMsg st
    let ex := collectExited st1.process_children
    ex.foldl applyExit st1
  else st

/-- App::kill_selected_process (src/app.rs). Returns the new state and
the id, if any, to which a termination signal was sent. -/
def kill_selected_process (st : AppState) : AppState × Option Nat :=
  if st.processes.isEmpty then (st, none)
  else
    let idx := min st.process_index (st.processes.length - 1)
    let id := (st.processes.getD idx default).id
    if (st.processes.getD idx default).status ≠ ProcessStatus.running then (st, none)
    else
      match st.process_children.findIdx? (fun c => c.1 == id) with
      | some pos =>
        ({ st with
            process_children := st.process_children.eraseIdx pos,
            processes := st.processes.set idx
              { st.processes.getD idx default with status := ProcessStatus.failed } },
          some id)
      | none =>
        ({ st with
            processes := st.processes.set idx
              { st.processes.getD idx default with status := ProcessStatus.failed } },
          none)

/-- App::spawn_claude_process (src/app.rs). The actual OS spawn is an
effect; its result (the child handle, or the error message rendered by
the spawn failure) is passed in. -/
def spawn_claude_process (st : AppState) (ticket : TicketInfo) (prompt : String)
    (spawnResult : Except String Child) : AppState :=
  let st0 := { st with has_channel := true }
  let id := st0.next_process_id
  let st1 := { st0 with next_process_id := id + 1 }
  match spawnResult with
  | Except.ok child =>
    { st1 with
      processes := st1.processes ++
        [{ id := id, label := ticket.key, title := ticket.title,
           source := ticket.source, status := ProcessStatus.running,
           prompt := prompt, cwd := st1.project_cwd,
           output_lines := [], error_lines := [] }],
      process_children := st1.process_children ++ [(id, child)],
      active_tab := ActiveTab.processes,
      process_index := st1.processes.length,
      process_output_scroll := 0 }
  | Except.error e =>
    { st1 with last_error := some ("Failed to spawn claude: " ++ e) }

/-! ### Transcript envelope parsing (src/model/transcript.rs) -/

/-- A JSON value as carried by the loosely typed envelope fields
(serde_json::Value; numbers are irrelevant to the parser and kept
as integers). -/
inductive Json where
  | null
  | bool (b : Bool)
  | num (n : Int)
  | str (s : String)
  | arr (xs : List Json)
  | obj (fields : List (String × Json))
deriving Repr

/-- Value::as_str. -/
def Json.asStr : Json → Option String
  | Json.str s => some s
  | _ => none

/-- Value::get with a string key: field lookup on objects, None on
everything else. -/
def Json.getKey : Json → String → Option Json
  | Json.obj fields, k => Option.map (fun f => f.2) (fields.find? (fun f => f.1 == k))
  | _, _ => none

/-- A typed content block (src/model/transcript.rs, ContentBlock). -/
inductive ContentBlock where
  | text (t : String)
  | toolUse (name : Option String) (input : Option Json)
  | toolResult (content : Option Json)
  | other
deriving Repr

/-- Message content: a plain string or a sequence of blocks
(src/model/transcript.rs, MessageContent). -/
inductive MessageContent where
  | text (s : String)
  | blocks (bs : List ContentBlock)
deriving Repr

/-- src/model/transcript.rs, TranscriptMessage. -/
structure TranscriptMessage where
  role : Option String
  content : MessageContent
deriving Repr

/-- src/model/transcript.rs, TranscriptEnvelope. Timestamps are opaque
to the parser and modelled as naturals; the catch-all extra fields are
the flattened remainder of the JSON object. -/
structure TranscriptEnvelope where
  kind : String
  timestamp : Option Nat
  message : Option TranscriptMessage
  extra : List (String × Json)
deriving Repr

/-- src/model/transcript.rs, TranscriptItemKind. -/
inductive TranscriptItemKind where
  | user
  | assistant
  | toolUse
  | toolResult
  | system
  | progress
  | other
deriving DecidableEq, Repr

/-- Processed transcript item for display
(src/model/transcript.rs, TranscriptItem). -/
structure TranscriptItem where
  timestamp : Option Nat
  kind : TranscriptItemKind
  text : String
deriving Repr

/-- Items produced by one content block inside the blocks arm of
parse_message_items: a text block yields one item when non-empty, a
tool_use and a tool_result always yield one item, Other yields none. -/
def blockItems (ts : Option Nat) (defaultKind : TranscriptItemKind)
    (block : ContentBlock) : List TranscriptItem :=
  match block with
  | ContentBlock.text t =>
    if t.isEmpty then [] else [⟨ts, defaultKind, t⟩]
  | ContentBlock.toolUse name input =>
    let toolName := name.getD ("unknown")
    let summary :=
      match input with
      | some (Json.obj map) =>
        (map.findSome? (fun f =>
          Option.map (fun s => f.1 ++ (": " ++ (s.take 50))) f.2.asStr)).getD ("")
      | _ => ""
    let text := if summary.isEmpty then toolName
      else toolName ++ (" (" ++ summary ++ ")")
    [⟨ts, TranscriptItemKind.toolUse, text⟩]
  | ContentBlock.toolResult content =>
    let text :=
      match content with
      | some (Json.str s) => s.take 80
      | some (Json.arr xs) =>
        (xs.findSome? (fun v =>
          Option.map (fun s => s.take 80) ((v.getKey ("text")).bind Json.asStr))).getD ("[result]")
      | _ => "[result]"
    [⟨ts, TranscriptItemKind.toolResult, text⟩]
  | ContentBlock.other => []

/-- src/model/transcript.rs, parse_message_items. -/
def parse_message_items (envelope : TranscriptEnvelope) (ts : Option Nat)
    (defaultKind : TranscriptItemKind) : List TranscriptItem :=
  match envelope.message with
  | none => []
  | some msg =>
    match msg.content with
    | MessageContent.text s =>
      if s.isEmpty then [] else [⟨ts, defaultKind, s⟩]
    | MessageContent.blocks bs => bs.flatMap (blockItems ts defaultKind)

/-- src/model/transcript.rs, extract_message_text: the first text
block's content (or the plain string content), else empty. -/
def extract_message_text (envelope : TranscriptEnvelope) : String :=
  match envelope.message with
  | some msg =>
    match msg.content with
    | MessageContent.text s => s
    | MessageContent.blocks bs =>
      (bs.findSome? (fun b =>
        match b with
        | ContentBlock.text t => some t
        | _ => none)).getD ("")
  | none => ""

/-- src/model/transcript.rs, parse_envelope: dispatch on the kind tag;
unknown kinds produce nothing. -/
def parse_envelope (envelope : TranscriptEnvelope) : List TranscriptItem :=
  let ts := envelope.timestamp
  if envelope.kind = "user" then
    parse_message_items envelope ts TranscriptItemKind.user
  else if envelope.kind = "assistant" then
    parse_message_items envelope ts TranscriptItemKind.assistant
  else if envelope.kind = "system" then
    let text := extract_message_text envelope
    if text.isEmpty then [] else [⟨ts, TranscriptItemKind.system, text⟩]
  else if envelope.kind = "progress" then
    let text :=
      ((Option.map (fun f => f.2) (envelope.extra.find? (fun f => f.1 == "content"))).bind
        Json.asStr).getD ("")
    if text.isEmpty then [] else [⟨ts, TranscriptItemKind.progress, text⟩]
  else []

/-! ### Main event loop skeleton (src/main.rs, run_app) -/

/-- Modelled from the spec: App::mark_dirty is called from run_app and
the dirty flag is read and cleared there, but the method body and the
field declaration are absent from src/app.rs in this snapshot; per the
spec it "sets a dirty flag ... gating the next redraw", so it is
modelled as setting the flag. -/
def mark_dirty (dirty : Bool) : Bool :=
  let _ := dirty
  true

/-- One iteration of the run_app loop (src/main.rs), shallowly embedded
over an abstract application state A. The domain handlers (handle_key,
the per-event dispatch, and the tick-time work: tracker polling,
poll_process_output, clear_stale_send_status) are parameters; the loop
structure — draw gated on the dirty flag, key handling, channel drain,
tick block — follows the source. Inputs of the iteration: the key event
observed (if any), the drained channel messages, and whether the tick
interval elapsed. Returns the new (app, dirty) pair and whether this
iteration redrew. -/
def runAppIter {A E K : Type} (handleKey : A → K → A) (handleEvent : A → E → A)
    (tickWork : A → A) (app : A) (dirty : Bool)
    (key : Option K) (msgs : List E) (tickElapsed : Bool) :
    (A × Bool) × Bool :=
  let redrew := dirty
  let s0 := (app, false)
  let s1 :=
    match key with
    | some k => (handleKey s0.1 k, mark_dirty s0.2)
    | none => s0
  let s2 := msgs.foldl (fun s m => (handleEvent s.1 m, mark_dirty s.2)) s1
  let s3 := if tickElapsed then (tickWork s2.1, mark_dirty s2.2) else s2
  (s3, redrew)

/-! ### Test fixtures -/

/-- A minimal process record used in concrete checks. -/
def mkProc (id : Nat) (st : ProcessStatus) : SpawnedProcess :=
  { id := id, label := "", title := "", source := TicketSource.manual,
    status := st, prompt := "", cwd := "", output_lines := [], error_lines := [] }

/-- A minimal app state used in concrete checks. -/
def mkState (procs : List SpawnedProcess) (children : List (Nat × Child)) : AppState :=
  { processes := procs, process_children := children, process_index := 0,
    process_output_scroll := 0, active_tab := ActiveTab.processes,
    last_error := none, next_process_id := 1, has_channel := true,
    project_cwd := "" }

/-! ### Helper lemmas -/

theorem updateFirst_cons_pos (p : α → Bool) (f : α → α) (x : α) (xs : List α)
    (h : p x = true) : updateFirst p f (x :: xs) = f x :: xs := by
  simp [updateFirst, h]

theorem updateFirst_eq_self {p : α → Bool} {f : α → α} :
    ∀ {l : List α}, (∀ x ∈ l, p x = false) → updateFirst p f l = l := by
  intro l
  induction l with
  | nil => intro _; rfl
  | cons x xs ih =>
    intro h
    have hx := h x (by simp)
    simp [updateFirst, hx]
    exact ih (fun y hy => h y (by simp [hy]))

theorem updateFirst_getD_preserve {Q : α → Prop} {p : α → Bool} {f : α → α}
    (hf : ∀ x, Q x → Q (f x)) :
    ∀ (l : List α) (i : Nat) (d : α), Q (l.getD i d) → Q ((updateFirst p f l).getD i d) := by
  intro l
  induction l with
  | nil => intro i d h; exact h
  | cons x xs ih =>
    intro i d h
    by_cases hp : p x = true
    · rw [updateFirst_cons_pos _ _ _ _ hp]
      cases i with
      | zero => exact hf x h
      | succ n => exact h
    · have hp' : p x = false := by simpa using hp
      simp only [updateFirst, hp']
      cases i with
      | zero => exact h
      | succ n => exact ih n d h

theorem updateFirst_id {p : α → Bool} {f : α → α} :
    ∀ {l : List α}, (∀ x ∈ l, f x = x) → updateFirst p f l = l := by
  intro l
  induction l with
  | nil => intro _; rfl
  | cons x xs ih =>
    intro h
    by_cases hp : p x = true
    · rw [updateFirst_cons_pos _ _ _ _ hp, h x (by simp)]
    · have hp' : p x = false := by simpa using hp
      simp only [updateFirst, hp', Bool.false_eq_true, if_false]
      rw [ih (fun y hy => h y (by simp [hy]))]

theorem extract_segment_ne_nil {path pre seg : List Char}
    (h : extract_segment path pre = some seg) : seg ≠ [] := by
  unfold extract_segment at h
  cases hf : findSub path pre with
  | none => rw [hf] at h; exact absurd h (by simp)
  | some idx =>
    rw [hf] at h
    simp only at h
    split at h
    · exact absurd h (by simp)
    · rename_i hne
      have := Option.some.inj h
      subst this
      intro hnil
      rw [hnil] at hne
      simp at hne

/-! ### Claim theorems -/

/-- C5: every path whose normalized form contains "/.git/" is handled
by the git rule alone: it classifies as GitRepoChanged exactly when it
ends with "/HEAD" or "/index" or contains "/refs/", and yields no
change otherwise — later rules (including the .json and .jsonl rules)
are never reached for git-internal paths. -/
theorem git_paths_classification (p enc : List Char)
    (h : strContains (normalize p) ("/.git/".data) = true) :
    classify_change p enc =
      if strEndsWith (normalize p) ("/index".data)
          || strEndsWith (normalize p) ("/HEAD".data)
          || strContains (normalize p) ("/refs/".data) then
        some FileChange.gitChange
      else none := by
  simp [classify_change, h]

/-- Witness for git_paths_classification at a concrete refs path. -/
theorem git_paths_classification_check :
    classify_change ("/r/.git/refs/heads/main".data) ("p".data) =
      if strEndsWith (normalize ("/r/.git/refs/heads/main".data)) ("/index".data)
          || strEndsWith (normalize ("/r/.git/refs/heads/main".data)) ("/HEAD".data)
          || strContains (normalize ("/r/.git/refs/heads/main".data)) ("/refs/".data) then
        some FileChange.gitChange
      else none :=
  git_paths_classification ("/r/.git/refs/heads/main".data) ("p".data) (by decide)

/-- C7: when the OS spawn of the claude subprocess fails, no process
record is appended, no child handle is retained, the active tab and
process selection are unchanged, and the failure is surfaced solely as
the last_error message. -/
theorem spawn_failure_leaves_state_unchanged (st : AppState) (t : TicketInfo)
    (pr e : String) :
    (spawn_claude_process st t pr (Except.error e)).processes = st.processes
    ∧ (spawn_claude_process st t pr (Except.error e)).process_children = st.process_children
    ∧ (spawn_claude_process st t pr (Except.error e)).active_tab = st.active_tab
    ∧ (spawn_claude_process st t pr (Except.error e)).process_index = st.process_index
    ∧ (spawn_claude_process st t pr (Except.error e)).last_error
        = some ("Failed to spawn claude: " ++ e) := by
  refine ⟨rfl, rfl, rfl, rfl, rfl⟩

/-- C9: a drained process-output message (Stdout, Stderr or Exited)
whose id matches no record leaves every record in the processes list
unchanged. -/
theorem unknown_id_messages_discarded (st : AppState) (id : Nat) (line : String)
    (success : Bool) (h : ∀ p ∈ st.processes, p.id ≠ id) :
    (applyMsg st (ProcessOutput.stdout id line)).processes = st.processes
    ∧ (applyMsg st (ProcessOutput.stderr id line)).processes = st.processes
    ∧ (applyMsg st (ProcessOutput.exited id success)).processes = st.processes := by
  have hfalse : ∀ p ∈ st.processes, (p.id == id) = false := by
    intro p hp
    simpa using h p hp
  refine ⟨?_, ?_, ?_⟩ <;>
    simp [applyMsg, updateFirst_eq_self hfalse]

/-- Witness for unknown_id_messages_discarded: a record with id 5 is
untouched by messages carrying id 7. -/
theorem unknown_id_messages_discarded_check :
    (applyMsg (mkState [mkProc 5 ProcessStatus.running] []) (ProcessOutput.stdout 7 ("x"))).processes
        = [mkProc 5 ProcessStatus.running]
    ∧ (applyMsg (mkState [mkProc 5 ProcessStatus.running] []) (ProcessOutput.stderr 7 ("x"))).processes
        = [mkProc 5 ProcessStatus.running]
    ∧ (applyMsg (mkState [mkProc 5 ProcessStatus.running] []) (ProcessOutput.exited 7 true)).processes
        = [mkProc 5 ProcessStatus.running] :=
  unknown_id_messages_discarded (mkState [mkProc 5 ProcessStatus.running] []) 7 ("x") true
    (by decide)

/-- C10: whenever the classifier emits a team-inbox change, the agent
field is the empty string and the team field is the (non-empty)
extracted segment. -/
theorem team_inbox_agent_always_empty (p enc t a : List Char)
    (h : classify_change p enc = some (FileChange.teamInbox t a)) :
    a = [] ∧ t ≠ [] := by
  simp only [classify_change] at h
  repeat' split at h
  all_goals try exact Option.noConfusion h
  all_goals injection h with h1
  all_goals try exact FileChange.noConfusion h1
  rename_i name hname
  injection h1 with hteam hagent
  subst hteam
  refine ⟨hagent.symm, ?_⟩
  split at hname
  · exact extract_segment_ne_nil hname
  · exact absurd hname (by simp)

/-- Witness for team_inbox_agent_always_empty at a concrete inbox path
classified as TeamInbox("alpha", ""). -/
theorem team_inbox_agent_always_empty_check :
    (([] : List Char) = []) ∧ ("alpha".data : List Char) ≠ [] :=
  team_inbox_agent_always_empty ("/h/teams/alpha/inboxes/m1".data) ("p".data)
    ("alpha".data) [] (by decide)

/-- C4 counterexample: the path "/a/tasks/t/todos/x.json" has the form
anything/todos/name.json, yet the classifier returns TaskFileChanged
("t"), not TodoFileChanged, because the tasks rule is tried first. -/
theorem todo_path_preempted_by_tasks_rule :
    classify_change ("/a/tasks/t/todos/x.json".data) ("p".data)
        = some (FileChange.taskFile ("t".data))
    ∧ classify_change ("/a/tasks/t/todos/x.json".data) ("p".data)
        ≠ some (FileChange.todoFile ("/a/tasks/t/todos/x.json".data)) := by
  decide

/-- C4 amended: the classifier is a pure total function into an Option,
so it yields at most one Change per path. A path containing "todos/"
and ending in ".json" yields TodoFileChanged provided no earlier rule
claims it (it is not git-internal, does not contain the session-index
substring, does not end in ".jsonl", and contains neither "teams/" nor
"tasks/"); and an unrelated path such as .../node_modules/x.js yields
no change. -/
theorem todo_rule_fires_when_no_earlier_rule :
    (∀ p enc : List Char,
      strContains (normalize p) ("/.git/".data) = false →
      strEndsWith (normalize p) ("/.git".data) = false →
      strContains (normalize p) (("projects/".data) ++ enc ++ ("/sessions-index.json".data)) = false →
      strEndsWith (normalize p) (".jsonl".data) = false →
      strContains (normalize p) ("teams/".data) = false →
      strContains (normalize p) ("tasks/".data) = false →
      strContains (normalize p) ("todos/".data) = true →
      strEndsWith (normalize p) (".json".data) = true →
      classify_change p enc = some (FileChange.todoFile p))
    ∧ classify_change ("/a/node_modules/x.js".data) ("p".data) = none := by
  constructor
  · intro p enc h1 h2 h3 h4 h5 h6 h7 h8
    simp at h3
    simp [classify_change, h1, h2, h3, h4, h5, h6, h7, h8]
  · decide

/-- Witness for todo_rule_fires_when_no_earlier_rule at a concrete
todos fixture path. -/
theorem todo_rule_fires_check :
    classify_change ("/h/.claude/todos/a.json".data) ("proj".data)
      = some (FileChange.todoFile ("/h/.claude/todos/a.json".data)) :=
  todo_rule_fires_when_no_earlier_rule.1 ("/h/.claude/todos/a.json".data) ("proj".data)
    (by decide) (by decide) (by decide) (by decide) (by decide) (by decide)
    (by decide) (by decide)

/-- C1 counterexample: a record that is already Failed is flipped to
Completed by a later Exited(id, success=true) message drained from the
process-output channel — the channel path of poll_process_output sets
the status unconditionally, so the Failed→Completed transition occurs. -/
theorem exited_message_overwrites_terminal_status :
    (mkProc 0 ProcessStatus.failed).status = ProcessStatus.failed
    ∧ ((poll_process_output [ProcessOutput.exited 0 true]
          (mkState [mkProc 0 ProcessStatus.failed] [])).processes.getD 0 default).status
        = ProcessStatus.completed := by
  decide

/-- C1 amended: terminal states are sticky against the non-blocking
exit-status poll of a child — a try_wait result never changes a record
whose status is not Running — but an Exited message drained from the
process-output channel overwrites the matching record's status with
the value determined by its success flag regardless of the current
status, so a later conflicting Exited message can change a terminal
status. -/
theorem terminal_signal_paths_dichotomy :
    (∀ (st : AppState) (e : Nat × Bool),
      (∀ p ∈ st.processes, p.status ≠ ProcessStatus.running) →
      (applyExit st e).processes = st.processes)
    ∧ (∀ (st : AppState) (id : Nat) (success : Bool) (p : SpawnedProcess)
        (rest : List SpawnedProcess),
      st.processes = p :: rest → p.id = id →
      (applyMsg st (ProcessOutput.exited id success)).processes
        = { p with status :=
              if success then ProcessStatus.completed else ProcessStatus.failed } :: rest) := by
  constructor
  · intro st e h
    have hid : ∀ x ∈ st.processes,
        (if x.status = ProcessStatus.running then
          { x with status :=
            if e.2 then ProcessStatus.completed else ProcessStatus.failed }
        else x) = x := by
      intro x hx
      simp [h x hx]
    simp [applyExit, updateFirst_id hid]
  · intro st id success p rest hst hid
    have hb : (p.id == id) = true := by simp [hid]
    simp only [applyMsg, hst]
    rw [updateFirst_cons_pos (fun q : SpawnedProcess => q.id == id) _ _ _ hb]

/-- Witness for terminal_signal_paths_dichotomy: a Failed record is
untouched by the exit-poll path but overwritten by the channel path. -/
theorem terminal_signal_paths_dichotomy_check :
    (applyExit (mkState [mkProc 0 ProcessStatus.failed] []) (0, true)).processes
        = [mkProc 0 ProcessStatus.failed]
    ∧ (applyMsg (mkState [mkProc 0 ProcessStatus.failed] [])
          (ProcessOutput.exited 0 true)).processes
        = [{ mkProc 0 ProcessStatus.failed with status :=
              if true then ProcessStatus.completed else ProcessStatus.failed }] :=
  ⟨terminal_signal_paths_dichotomy.1 (mkState [mkProc 0 ProcessStatus.failed] []) (0, true)
      (by decide),
   terminal_signal_paths_dichotomy.2 (mkState [mkProc 0 ProcessStatus.failed] []) 0 true
      (mkProc 0 ProcessStatus.failed) [] rfl rfl⟩

theorem foldl_stdout_replicate (n : Nat) :
    ∀ (st : AppState) (id : Nat) (line : String) (p : SpawnedProcess)
      (rest : List SpawnedProcess),
    st.processes = p :: rest → p.id = id →
    ((List.replicate n (ProcessOutput.stdout id line)).foldl applyMsg st).processes
        = { p with output_lines := p.output_lines ++ List.replicate n line } :: rest
    ∧ ((List.replicate n (ProcessOutput.stdout id line)).foldl applyMsg st).process_children
        = st.process_children := by
  induction n with
  | zero =>
    intro st id line p rest hst hid
    simp [hst]
  | succ n ih =>
    intro st id line p rest hst hid
    have hb : (p.id == id) = true := by simp [hid]
    have hmsg : (applyMsg st (ProcessOutput.stdout id line)).processes
        = { p with output_lines := p.output_lines ++ [line] } :: rest := by
      simp only [applyMsg, hst]
      rw [updateFirst_cons_pos (fun q : SpawnedProcess => q.id == id) _ _ _ hb]
    have hch : (applyMsg st (ProcessOutput.stdout id line)).process_children
        = st.process_children := rfl
    rw [List.replicate_succ, List.foldl_cons]
    obtain ⟨ihp, ihc⟩ := ih (applyMsg st (ProcessOutput.stdout id line)) id line
      { p with output_lines := p.output_lines ++ [line] } rest hmsg hid
    constructor
    · rw [ihp]
      simp [List.replicate_succ, List.append_assoc]
    · rw [ihc, hch]

/-- C2: the documented 10,000-line cap on a record's output buffer is
not enforced anywhere: draining MAX_PROCESS_OUTPUT_LINES + 1 Stdout
messages for one record grows its output_lines to
MAX_PROCESS_OUTPUT_LINES + 1 entries — past the cap, with no FIFO
eviction. -/
theorem output_lines_exceed_documented_cap :
    ((poll_process_output
        (List.replicate (MAX_PROCESS_OUTPUT_LINES + 1) (ProcessOutput.stdout 0 ("x")))
        (mkState [mkProc 0 ProcessStatus.running] [])).processes.getD 0 default).output_lines.length
      = MAX_PROCESS_OUTPUT_LINES + 1 := by
  obtain ⟨hp, hc⟩ := foldl_stdout_replicate (MAX_PROCESS_OUTPUT_LINES + 1)
    (mkState [mkProc 0 ProcessStatus.running] []) 0 ("x")
    (mkProc 0 ProcessStatus.running) [] rfl rfl
  have hch : (mkState [mkProc 0 ProcessStatus.running] []).process_children = [] := rfl
  have hcond : (mkState [mkProc 0 ProcessStatus.running] []).has_channel = true := rfl
  simp only [poll_process_output]
  rw [if_pos hcond]
  rw [hc, hch]
  simp only [collectExited, List.filterMap_nil, List.foldl_nil]
  rw [hp]
  simp [mkProc]

/-- C6 counterexample: after killing the selected Running process (the
record becomes Failed, the handle is removed, a signal to id 0 is
sent), a later Exited(0, success=true) message drained from the output
channel still marks the record Completed — the "no later exit signal
can mark it Completed" part of the claim fails. -/
theorem killed_process_remarked_completed :
    (kill_selected_process (mkState [mkProc 0 ProcessStatus.running]
        [(0, ⟨TryWaitResult.stillRunning⟩)])).2 = some 0
    ∧ ((kill_selected_process (mkState [mkProc 0 ProcessStatus.running]
          [(0, ⟨TryWaitResult.stillRunning⟩)])).1.processes.getD 0 default).status
        = ProcessStatus.failed
    ∧ ((poll_process_output [ProcessOutput.exited 0 true]
          (kill_selected_process (mkState [mkProc 0 ProcessStatus.running]
            [(0, ⟨TryWaitResult.stillRunning⟩)])).1).processes.getD 0 default).status
        = ProcessStatus.completed := by
  decide

/-- C6 amended: killing the selected process when its record is Running
and its child handle is in the polled set sends a termination signal to
that child, removes the handle, and immediately sets the status to
Failed regardless of the eventual exit code; no later non-blocking
exit-status poll can change a Failed record (the poll path is sticky),
though a later Exited channel message with success=true would still
mark it Completed. -/
theorem kill_selected_process_spec :
    (∀ (st : AppState) (idx id pos : Nat),
      st.processes.isEmpty = false →
      idx = min st.process_index (st.processes.length - 1) →
      id = (st.processes.getD idx default).id →
      (st.processes.getD idx default).status = ProcessStatus.running →
      st.process_children.findIdx? (fun c => c.1 == id) = some pos →
      (kill_selected_process st).2 = some id
      ∧ (kill_selected_process st).1.process_children = st.process_children.eraseIdx pos
      ∧ (kill_selected_process st).1.processes
          = st.processes.set idx
              { st.processes.getD idx default with status := ProcessStatus.failed })
    ∧ (∀ (st : AppState) (exits : List (Nat × Bool)) (i : Nat),
      (st.processes.getD i default).status = ProcessStatus.failed →
      ((exits.foldl applyExit st).processes.getD i default).status = ProcessStatus.failed) := by
  constructor
  · intro st idx id pos hne hidx hid hrun hfind
    subst hidx
    subst hid
    simp only [kill_selected_process, hne, hrun, hfind]
    simp
  · intro st exits
    induction exits generalizing st with
    | nil => intro i h; exact h
    | cons e rest ih =>
      intro i h
      rw [List.foldl_cons]
      refine ih (applyExit st e) i ?_
      have hstep : ∀ (x : SpawnedProcess), x.status = ProcessStatus.failed →
          (if x.status = ProcessStatus.running then
            { x with status :=
              if e.2 then ProcessStatus.completed else ProcessStatus.failed }
          else x).status = ProcessStatus.failed := by
        intro x hx
        simp [hx]
      exact updateFirst_getD_preserve (Q := fun x => x.status = ProcessStatus.failed)
        hstep st.processes i default h

/-- Witness for kill_selected_process_spec: both parts applied to
concrete one-process states. -/
theorem kill_selected_process_spec_check :
    (kill_selected_process (mkState [mkProc 0 ProcessStatus.running]
        [(0, ⟨TryWaitResult.stillRunning⟩)])).2 = some 0
    ∧ (([((0 : Nat), true)].foldl applyExit
          (mkState [mkProc 0 ProcessStatus.failed] [])).processes.getD 0 default).status
        = ProcessStatus.failed :=
  ⟨(kill_selected_process_spec.1 (mkState [mkProc 0 ProcessStatus.running]
      [(0, ⟨TryWaitResult.stillRunning⟩)]) 0 0 0
      (by decide) (by decide) (by decide) (by decide) (by decide)).1,
   kill_selected_process_spec.2 (mkState [mkProc 0 ProcessStatus.failed] [])
      [(0, true)] 0 (by decide)⟩

theorem blockItems_length_le_one (ts : Option Nat) (k : TranscriptItemKind)
    (b : ContentBlock) : (blockItems ts k b).length ≤ 1 := by
  cases b with
  | text t => simp only [blockItems]; split <;> simp
  | toolUse name input => simp [blockItems]
  | toolResult content => simp [blockItems]
  | other => simp [blockItems]

theorem flatMap_length_le {α β : Type} (f : α → List β)
    (h : ∀ b, (f b).length ≤ 1) : ∀ l : List α, (l.flatMap f).length ≤ l.length := by
  intro l
  induction l with
  | nil => simp
  | cons x xs ih =>
    rw [List.flatMap_cons, List.length_append, List.length_cons]
    have := h x
    omega

/-- C8: parse_envelope yields the empty item sequence for every
envelope whose kind tag is none of user, assistant, system or progress;
and for a message whose content is a sequence of typed blocks, each
block yields at most one item, so the parsed item count never exceeds
the block count. -/
theorem parse_envelope_kind_and_block_bounds :
    (∀ env : TranscriptEnvelope,
      env.kind ≠ "user" → env.kind ≠ "assistant" → env.kind ≠ "system" →
      env.kind ≠ "progress" → parse_envelope env = [])
    ∧ (∀ (env : TranscriptEnvelope) (ts : Option Nat) (k : TranscriptItemKind)
        (msg : TranscriptMessage) (bs : List ContentBlock),
      env.message = some msg → msg.content = MessageContent.blocks bs →
      (parse_message_items env ts k).length ≤ bs.length) := by
  constructor
  · intro env h1 h2 h3 h4
    simp [parse_envelope, h1, h2, h3, h4]
  · intro env ts k msg bs hm hc
    simp only [parse_message_items, hm, hc]
    exact flatMap_length_le (blockItems ts k) (blockItems_length_le_one ts k) bs

/-- An envelope with an unrecognized kind tag, used in concrete checks. -/
def envUnknownKind : TranscriptEnvelope :=
  ⟨"banana", none, none, []⟩

/-- A two-block user message, used in concrete checks. -/
def msgTwoBlocks : TranscriptMessage :=
  ⟨none, MessageContent.blocks [ContentBlock.text ("hi"), ContentBlock.other]⟩

/-- A user envelope carrying msgTwoBlocks, used in concrete checks. -/
def envTwoBlocks : TranscriptEnvelope :=
  ⟨"user", none, some msgTwoBlocks, []⟩

/-- Witness for parse_envelope_kind_and_block_bounds: an unknown kind
produces no items; a two-block user message produces at most two. -/
theorem parse_envelope_kind_and_block_bounds_check :
    parse_envelope envUnknownKind = []
    ∧ (parse_message_items envTwoBlocks none TranscriptItemKind.user).length
      ≤ [ContentBlock.text ("hi"), ContentBlock.other].length :=
  ⟨parse_envelope_kind_and_block_bounds.1 envUnknownKind
      (by decide) (by decide) (by decide) (by decide),
   parse_envelope_kind_and_block_bounds.2 envTwoBlocks none TranscriptItemKind.user
      msgTwoBlocks [ContentBlock.text ("hi"), ContentBlock.other] rfl rfl⟩

theorem foldl_msgs_dirty {A E : Type} (he : A → E → A) :
    ∀ (t : List E) (acc : A × Bool),
      (t.foldl (fun s m => (he s.1 m, true)) acc).2 = (acc.2 || !t.isEmpty) := by
  intro t
  induction t with
  | nil => intro acc; simp
  | cons m rest ih =>
    intro acc
    rw [List.foldl_cons, ih]
    simp

/-- C3 counterexample: with identity handlers (no state ever changes),
an iteration with no key event, no drained message, and an elapsed tick
leaves the dirty flag set — the tick block calls mark_dirty
unconditionally — so the NEXT iteration performs a redraw even though
nothing changed; the claimed idle-tick redraw skip does not hold. -/
theorem idle_tick_still_redraws :
    ((runAppIter (fun (a : Unit) (_ : Unit) => a) (fun (a : Unit) (_ : Unit) => a)
        (fun a => a) () false none [] true).1.2 = true)
    ∧ ((runAppIter (fun (a : Unit) (_ : Unit) => a) (fun (a : Unit) (_ : Unit) => a)
        (fun a => a)
        (runAppIter (fun (a : Unit) (_ : Unit) => a) (fun (a : Unit) (_ : Unit) => a)
          (fun a => a) () false none [] true).1.1
        (runAppIter (fun (a : Unit) (_ : Unit) => a) (fun (a : Unit) (_ : Unit) => a)
          (fun a => a) () false none [] true).1.2
        none [] false).2 = true) := by
  decide

/-- C3 amended: a redraw is performed exactly when the dirty flag was
set by the previous iteration, and the dirty flag after an iteration
equals "a key press was handled, or a channel message was drained, or
the tick interval elapsed" — the tick block sets it unconditionally,
whether or not any state changed, so an idle elapsed tick still causes
a redraw on the next iteration; redraws are skipped only on iterations
preceded by no key, no message, and no elapsed tick. -/
theorem dirty_flag_gating {A E K : Type} (hk : A → K → A) (he : A → E → A)
    (tw : A → A) (app : A) (dirty : Bool) (key : Option K) (msgs : List E)
    (tick : Bool) :
    (runAppIter hk he tw app dirty key msgs tick).2 = dirty
    ∧ (runAppIter hk he tw app dirty key msgs tick).1.2
        = (key.isSome || !msgs.isEmpty || tick) := by
  constructor
  · rfl
  · simp only [runAppIter, mark_dirty]
    cases key <;> cases tick <;> simp [foldl_msgs_dirty]
